import Mathlib

/-!
Verification of the paginated activity retrieval engine of JBSPOLY
(`src/scrape_trades.py`): a shallow embedding of
`parse_activity_response`, `page_fingerprint` and `fetch_activity`,
together with theorems settling the frozen claims about their behaviour.

Modelling conventions:
* JSON-decoded Python values are modelled by `JValue` (numbers as `Int`;
  no claim depends on float-typed fields, item contents are opaque).
* Python value equality inside the two sets kept by the fetcher
  (`seen_cursors`, `seen_fingerprints`) is modelled by structural
  equality on `JValue`.  CPython additionally identifies `True == 1`
  and compares dicts order-insensitively, and raises `TypeError` when
  an unhashable value is inserted into a set; the tokens and
  fingerprints actually handled are strings, numbers and tuples of
  those, where the two notions agree, and no claim exercises the
  difference.
* The HTTP transport is modelled by a script of responses, one per
  request, each either a transport failure (`requests` exception /
  non-success status) or a decoded JSON body.  The inter-page
  `time.sleep` has no observable effect in this model and is omitted.
-/

set_option maxRecDepth 8192

mutual
inductive JValue where
  | null : JValue
  | bool (b : Bool) : JValue
  | num (n : Int) : JValue
  | str (s : String) : JValue
  | arr (xs : JList) : JValue
  | obj (fs : JFields) : JValue
deriving DecidableEq, Repr
inductive JList where
  | nil : JList
  | cons (v : JValue) (tl : JList) : JList
deriving DecidableEq, Repr
inductive JFields where
  | nil : JFields
  | cons (k : String) (v : JValue) (tl : JFields) : JFields
deriving DecidableEq, Repr
end

/-- The ordered list of values of a JSON array. -/
def JList.toList : JList → List JValue
  | .nil => []
  | .cons v tl => v :: tl.toList

/-- `dict.get(key)`: value stored under `key`, if present (keys of a
Python dict are unique, so first match suffices). -/
def jget : JFields → String → Option JValue
  | .nil, _ => none
  | .cons k v tl, key => if k = key then some v else jget tl key

/-- Python truthiness of a JSON-decoded value (`bool(x)`). -/
def truthy : JValue → Bool
  | .null => false
  | .bool b => b
  | .num n => n != 0
  | .str s => s ≠ ""
  | .arr xs => xs ≠ .nil
  | .obj fs => fs ≠ .nil

/-- Python truthiness of an optional value (`None` is falsy). -/
def optTruthy : Option JValue → Bool
  | none => false
  | some v => truthy v

mutual
/-- Python `repr` of a JSON-decoded value, as used for elements nested
inside the `str` rendering of a list. -/
def pyRepr : JValue → String
  | .null => "None"
  | .bool b => if b then "True" else "False"
  | .num n => toString n
  | .str s => "'" ++ s ++ "'"
  | .arr xs => "[" ++ pyReprList xs ++ "]"
  | .obj fs => "\x7b" ++ pyReprFields fs ++ "\x7d"
def pyReprList : JList → String
  | .nil => ""
  | .cons v .nil => pyRepr v
  | .cons v tl => pyRepr v ++ ", " ++ pyReprList tl
def pyReprFields : JFields → String
  | .nil => ""
  | .cons k v .nil => "'" ++ k ++ "': " ++ pyRepr v
  | .cons k v tl => "'" ++ k ++ "': " ++ pyRepr v ++ ", " ++ pyReprFields tl
end

/-- Python `str` of a JSON-decoded value (top level: strings render
without quotes, every other value as its `repr`). -/
def pyStr : JValue → String
  | .str s => s
  | v => pyRepr v

/-- `data.get(key)` when a list is required
(`isinstance(data.get(key), list)`): the array stored under `key`. -/
def asArr : Option JValue → Option JList
  | some (.arr xs) => some xs
  | _ => none

/-- The item-list search of `parse_activity_response`, lines 137-143:
first list-valued key among `activity`, `items`, `results`, `data`,
then the separate `result` fallback. -/
def findItems (d : JFields) : Option JList :=
  match asArr (jget d "activity") <|> asArr (jget d "items")
      <|> asArr (jget d "results") <|> asArr (jget d "data") with
  | some xs => some xs
  | none => asArr (jget d "result")

/-- `if data.get(key): cursor = data.get(key)`: the value under `key`
when it is truthy. -/
def truthyGet (d : JFields) (key : String) : Option JValue :=
  match jget d key with
  | some v => if truthy v then some v else none
  | none => none

/-- Top-level cursor search of `parse_activity_response`, lines
150-154: first truthy value among `nextCursor`, `next_cursor`,
`cursor`, `next` (note: no `nextPageToken` at top level). -/
def topCursor (d : JFields) : Option JValue :=
  truthyGet d "nextCursor" <|> truthyGet d "next_cursor"
    <|> truthyGet d "cursor" <|> truthyGet d "next"

/-- `pagination = data.get("pagination") if isinstance(..., dict) else
\x7b\x7d` (line 156). -/
def pagFields (d : JFields) : JFields :=
  match jget d "pagination" with
  | some (.obj p) => p
  | _ => .nil

/-- Cursor search inside the `pagination` sub-object, lines 157-161:
first truthy value among `nextCursor`, `next_cursor`, `cursor`,
`next`, `nextPageToken`. -/
def pagCursor (p : JFields) : Option JValue :=
  truthyGet p "nextCursor" <|> truthyGet p "next_cursor"
    <|> truthyGet p "cursor" <|> truthyGet p "next"
    <|> truthyGet p "nextPageToken"

/-- The complete cursor extraction of `parse_activity_response`:
top-level keys first; the pagination sub-object is consulted only when
no top-level key yielded a cursor and the sub-object is non-empty. -/
def parseCursor (d : JFields) : Option JValue :=
  match topCursor d with
  | some c => some c
  | none => if pagFields d ≠ JFields.nil then pagCursor (pagFields d) else none

/-- The `hasMore` / `has_more` search over one dict, lines 164-167:
keyed on *presence* (`if key in data`), coercing the value with
`bool(...)`. -/
def hasMoreIn (d : JFields) : Option Bool :=
  match jget d "hasMore" with
  | some v => some (truthy v)
  | none =>
    match jget d "has_more" with
    | some v => some (truthy v)
    | none => none

/-- The complete "more data" flag extraction of
`parse_activity_response`, lines 163-172: top level first, then the
non-empty pagination sub-object. -/
def parseHasMore (d : JFields) : Option Bool :=
  match hasMoreIn d with
  | some b => some b
  | none => if pagFields d ≠ JFields.nil then hasMoreIn (pagFields d) else none

/-- One decoded page: the item list, the optional next-cursor value,
and the optional "more data" flag. -/
abbrev Parsed := List JValue × Option JValue × Option Bool

/-- `parse_activity_response` (lines 130-174): a bare list is a legacy
page; a dict must carry the item list under a recognized key; anything
else, or a dict without a recognized item key, raises `RuntimeError`
(modelled by `Except.error`). -/
def parse_activity_response (data : JValue) : Except String Parsed :=
  match data with
  | .arr xs => .ok (xs.toList, none, none)
  | .obj d =>
    match findItems d with
    | none => .error "Unexpected activity response shape"
    | some xs => .ok (xs.toList, parseCursor d, parseHasMore d)
  | _ => .error "Unexpected activity response type"

example : pyStr (.num 3) = "3" := rfl
example : pyStr (.arr (.cons (.str "a") .nil)) = "['a']" := rfl
example : parse_activity_response (.arr (.cons .null .nil)) = .ok ([.null], none, none) := rfl
example :
    parse_activity_response
      (.obj (.cons "items" (.arr .nil) (.cons "nextCursor" (.str "c") .nil)))
      = .ok ([], some (.str "c"), none) := rfl
example :
    parse_activity_response (.obj (.cons "foo" (.arr .nil) .nil))
      = .error "Unexpected activity response shape" := rfl

/-- `pick_key` (lines 195-199): the value under the first present of
the identifying keys, `None` when none is present.  The code only
reaches it for pages whose first item is a dict; a non-dict item in
such a page is modelled as yielding `None` (CPython may instead raise
on such mixed pages; no claim exercises them). -/
def pick_key (item : JValue) : JValue :=
  match item with
  | .obj fs =>
    match jget fs "transactionHash" with
    | some v => v
    | none =>
      match jget fs "txHash" with
      | some v => v
      | none =>
        match jget fs "hash" with
        | some v => v
        | none =>
          match jget fs "id" with
          | some v => v
          | none =>
            match jget fs "timestamp" with
            | some v => v
            | none => .null
  | _ => .null

/-- A page fingerprint: a Python 3-tuple of two identifying values and
the item count. -/
abbrev Fingerprint := JValue × JValue × Nat

/-- `page_fingerprint` (lines 191-202): `None` for an empty page;
otherwise the (first-item, last-item, count) triple, built from
`pick_key` values when the first item is a dict and from 80-character
truncated `str` renderings otherwise. -/
def page_fingerprint (items : List JValue) : Option Fingerprint :=
  match items with
  | [] => none
  | first :: _ =>
    let last := items.getLastD first
    match first with
    | .obj _ => some (pick_key first, pick_key last, items.length)
    | _ => some (.str ((pyStr first).take 80), .str ((pyStr last).take 80), items.length)

/-- `set.add`: insert unless already a member. -/
def sinsert [DecidableEq α] (x : α) (s : List α) : List α :=
  if x ∈ s then s else x :: s

/-- One request issued against the activity endpoint: the query
parameters built at lines 205-215. -/
structure Request where
  limit : Nat
  sortBy : String
  sortDirection : String
  user : String
  market : String
  cursor : Option JValue
  offset : Option Nat
deriving DecidableEq, Repr

/-- The mutable state of one in-flight fetch (`fetch_activity` locals). -/
structure St where
  allItems : List JValue
  offset : Nat
  cursor : Option JValue
  seenCursors : List JValue
  page : Nat
  seenFps : List (Option Fingerprint)
deriving DecidableEq

/-- Initial fetch state (lines 184-189). -/
def initSt : St := ⟨[], 0, none, [], 0, []⟩

/-- The request built at the top of the loop: `cursor` when a truthy
cursor is held, `offset` otherwise (lines 205-215). -/
def mkRequest (user market : String) (limit : Nat) (st : St) : Request :=
  if optTruthy st.cursor then
    ⟨limit, "TIMESTAMP", "DESC", user, market, st.cursor, none⟩
  else
    ⟨limit, "TIMESTAMP", "DESC", user, market, none, some st.offset⟩

/-- One scripted transport response: a `requests` failure
(connection error or non-success status raised by
`raise_for_status`), or a decoded JSON body. -/
inductive TResp where
  | err : TResp
  | body (data : JValue) : TResp

/-- Why the loop returned normally (instrumentation of the `break`s;
the code itself only prints these distinctions). -/
inductive StopReason where
  | emptyPage : StopReason
  | fpRepeat : StopReason
  | cursorRepeat (c : JValue) : StopReason
  | shortPage : StopReason
  | hasMoreFalse : StopReason
  | pageCap : StopReason
deriving DecidableEq

/-- How the fetch ended: a normal return of `all_items`, a propagated
transport exception, a propagated `RuntimeError` from the decoder
(in both cases nothing is returned to the caller), or exhaustion of
the scripted responses (a model artifact: the fetch would issue the
next request and block on the network). -/
inductive Outcome where
  | returned (items : List JValue) (reason : StopReason) : Outcome
  | transportErr : Outcome
  | decodeErr : Outcome
  | noResponse : Outcome
deriving DecidableEq

/-- The observable trace of one fetch: every request issued in order,
every successfully decoded page in order, every page actually appended
to `all_items` in order, and the outcome. -/
structure FetchResult where
  requests : List Request
  parses : List Parsed
  appended : List (List JValue)
  outcome : Outcome

/-- Lines 229-232: record the page fingerprint as seen, extend
`all_items` with the page, bump the page counter. -/
def pageAppend (st : St) (items : List JValue) : St :=
  { st with seenFps := sinsert (page_fingerprint items) st.seenFps,
            allItems := st.allItems ++ items, page := st.page + 1 }

/-- Result of the cursor/offset bookkeeping of lines 238-248. -/
inductive CurRes where
  | stop (items : List JValue) (r : StopReason) : CurRes
  | go (st : St) : CurRes

/-- Lines 244-248: drop the cursor; a short page ends the fetch,
a full page advances the offset by the item count. -/
def offsetStep (limit : Nat) (st : St) (items : List JValue) : CurRes :=
  let st' := { st with cursor := none }
  if items.length < limit then .stop st'.allItems .shortPage
  else .go { st' with offset := st'.offset + items.length }

/-- Lines 238-248: a truthy next cursor is rejected when already
consumed, otherwise recorded and adopted; a non-truthy next cursor
falls to the offset logic. -/
def cursorStep (limit : Nat) (st : St) (items : List JValue) (nc : Option JValue) : CurRes :=
  match nc with
  | some c =>
    if truthy c then
      if c ∈ st.seenCursors then .stop st.allItems (.cursorRepeat c)
      else .go { st with seenCursors := sinsert c st.seenCursors, cursor := some c }
    else offsetStep limit st items
  | none => offsetStep limit st items

/-- Result of the end-of-iteration checks of lines 250-254. -/
inductive TailRes where
  | stop (r : StopReason) : TailRes
  | go : TailRes

/-- Lines 250-254: an explicit `hasMore: false` ends the fetch, then
the optional page ceiling is checked. -/
def fetchTail (maxPages : Option Nat) (page : Nat) (hm : Option Bool) : TailRes :=
  if hm = some false then .stop .hasMoreFalse
  else
    match maxPages with
    | some mp => if page ≥ mp then .stop .pageCap else .go
    | none => .go

/-- The `while True` loop of `fetch_activity` (lines 204-257), run
against a script of transport responses (one response per request);
each iteration contributes its request, its decoded page and its
appended page to the front of the trace. -/
def fetchGo (user market : String) (limit : Nat) (maxPages : Option Nat) (st : St) :
    List TResp → FetchResult
  | [] => ⟨[mkRequest user market limit st], [], [], .noResponse⟩
  | .err :: _ => ⟨[mkRequest user market limit st], [], [], .transportErr⟩
  | .body d :: rest =>
    let req := mkRequest user market limit st
    match parse_activity_response d with
    | .error _ => ⟨[req], [], [], .decodeErr⟩
    | .ok (items, nc, hm) =>
      if items = [] then
        ⟨[req], [(items, nc, hm)], [], .returned st.allItems .emptyPage⟩
      else
        if st.cursor = none ∧ page_fingerprint items ∈ st.seenFps then
          ⟨[req], [(items, nc, hm)], [], .returned st.allItems .fpRepeat⟩
        else
          match cursorStep limit (pageAppend st items) items nc with
          | .stop its r =>
            ⟨[req], [(items, nc, hm)], [items], .returned its r⟩
          | .go st2 =>
            match fetchTail maxPages st2.page hm with
            | .stop r =>
              ⟨[req], [(items, nc, hm)], [items], .returned st2.allItems r⟩
            | .go =>
              let R := fetchGo user market limit maxPages st2 rest
              ⟨req :: R.requests, (items, nc, hm) :: R.parses, items :: R.appended, R.outcome⟩

/-- `fetch_activity` (lines 177-259): run the pagination loop from the
initial state against the given response script. -/
def fetch_activity (user market : String) (limit : Nat) (maxPages : Option Nat)
    (responses : List TResp) : FetchResult :=
  fetchGo user market limit maxPages initSt responses

/-- Convenience constructor for JSON arrays. -/
def jlist : List JValue → JList
  | [] => .nil
  | v :: tl => .cons v (jlist tl)

/-- Convenience constructor for JSON objects. -/
def jobj : List (String × JValue) → JFields
  | [] => .nil
  | (k, v) :: tl => .cons k v (jobj tl)

example :
    (fetch_activity "u" "m" 1 none
      [.body (.obj (jobj [("data", .arr (jlist [.num 1])), ("nextCursor", .str "abc")])),
       .body (.obj (jobj [("data", .arr (jlist [.num 2])), ("nextCursor", .str "abc")]))]).outcome
      = .returned [.num 1, .num 2] (.cursorRepeat (.str "abc")) := rfl

example :
    (fetch_activity "u" "m" 1 none
      [.body (.obj (jobj [("data", .arr (jlist [.num 1])), ("nextCursor", .str "abc")])),
       .body (.obj (jobj [("data", .arr (jlist [.num 2])), ("nextCursor", .str "abc")]))]).requests
      = [⟨1, "TIMESTAMP", "DESC", "u", "m", none, some 0⟩,
         ⟨1, "TIMESTAMP", "DESC", "u", "m", some (.str "abc"), none⟩] := rfl

example :
    (fetch_activity "u" "m" 2 none
      [.body (.arr (jlist [.num 0, .num 1])), .body (.arr (jlist [.num 2])),
       .body (.arr .nil)]).outcome
      = .returned [.num 0, .num 1, .num 2] .shortPage := rfl

/-- Meeting an undecodable body: the `RuntimeError` raised by
`parse_activity_response` propagates out of `fetch_activity`
immediately, whatever has been accumulated. -/
theorem fetchGo_decodeErr (u m : String) (l : Nat) (mp : Option Nat) (st : St)
    (d : JValue) (rest : List TResp) (e : String)
    (hp : parse_activity_response d = .error e) :
    fetchGo u m l mp st (.body d :: rest) = ⟨[mkRequest u m l st], [], [], .decodeErr⟩ := by
  simp [fetchGo, hp]

/-- A page decoded with `hasMore: false` is the last page of the
fetch: the loop breaks on every control path of that iteration. -/
theorem fetchGo_hasMoreFalse (u m : String) (l : Nat) (mp : Option Nat) (st : St)
    (d : JValue) (rest : List TResp) (items : List JValue) (nc : Option JValue)
    (hp : parse_activity_response d = .ok (items, nc, some false)) :
    (fetchGo u m l mp st (.body d :: rest)).requests = [mkRequest u m l st] ∧
    ∃ its r, (fetchGo u m l mp st (.body d :: rest)).outcome = .returned its r := by
  simp only [fetchGo, hp]
  by_cases h0 : items = []
  · simp [h0]
  · simp only [if_neg h0]
    by_cases h1 : st.cursor = none ∧ page_fingerprint items ∈ st.seenFps
    · simp [h1]
    · simp only [if_neg h1]
      rcases hcs : cursorStep l _ items nc with ⟨its, r⟩ | st2
      · simp [hcs]
      · simp [hcs, fetchTail]

theorem cursorStep_notTruthy (l : Nat) (s : St) (items : List JValue) (nc : Option JValue)
    (h : optTruthy nc = false) : cursorStep l s items nc = offsetStep l s items := by
  cases nc with
  | none => rfl
  | some c => simp only [optTruthy] at h; simp [cursorStep, h]

theorem cursorStep_dup (l : Nat) (s : St) (items : List JValue) (c : JValue)
    (ht : truthy c) (hmem : c ∈ s.seenCursors) :
    cursorStep l s items (some c) = .stop s.allItems (.cursorRepeat c) := by
  simp [cursorStep, ht, hmem]

theorem cursorStep_new (l : Nat) (s : St) (items : List JValue) (c : JValue)
    (ht : truthy c) (hmem : c ∉ s.seenCursors) :
    cursorStep l s items (some c)
      = .go { s with seenCursors := sinsert c s.seenCursors, cursor := some c } := by
  simp [cursorStep, ht, hmem]

theorem offsetStep_short (l : Nat) (s : St) (items : List JValue)
    (h : items.length < l) :
    offsetStep l s items = .stop s.allItems .shortPage := by
  simp [offsetStep, h]

theorem offsetStep_full (l : Nat) (s : St) (items : List JValue)
    (h : ¬ items.length < l) :
    offsetStep l s items
      = .go { s with cursor := none, offset := s.offset + items.length } := by
  simp [offsetStep, h]

theorem fetchTail_false (mp : Option Nat) (page : Nat) :
    fetchTail mp page (some false) = .stop .hasMoreFalse := by
  simp [fetchTail]

theorem fetchGo_nil (u m : String) (l : Nat) (mp : Option Nat) (st : St) :
    fetchGo u m l mp st [] = ⟨[mkRequest u m l st], [], [], .noResponse⟩ := rfl

theorem fetchGo_err (u m : String) (l : Nat) (mp : Option Nat) (st : St)
    (rest : List TResp) :
    fetchGo u m l mp st (.err :: rest) = ⟨[mkRequest u m l st], [], [], .transportErr⟩ := rfl

theorem fetchGo_ok_empty (u m : String) (l : Nat) (mp : Option Nat) (st : St)
    (d : JValue) (rest : List TResp) (nc : Option JValue) (hm : Option Bool)
    (hp : parse_activity_response d = .ok ([], nc, hm)) :
    fetchGo u m l mp st (.body d :: rest)
      = ⟨[mkRequest u m l st], [([], nc, hm)], [], .returned st.allItems .emptyPage⟩ := by
  simp [fetchGo, hp]

theorem fetchGo_ok_fpRepeat (u m : String) (l : Nat) (mp : Option Nat) (st : St)
    (d : JValue) (rest : List TResp) (items : List JValue) (nc : Option JValue)
    (hm : Option Bool) (hp : parse_activity_response d = .ok (items, nc, hm))
    (h0 : items ≠ []) (hc : st.cursor = none)
    (hfp : page_fingerprint items ∈ st.seenFps) :
    fetchGo u m l mp st (.body d :: rest)
      = ⟨[mkRequest u m l st], [(items, nc, hm)], [], .returned st.allItems .fpRepeat⟩ := by
  simp [fetchGo, hp, h0, hc, hfp]

theorem fetchGo_ok_stop (u m : String) (l : Nat) (mp : Option Nat) (st : St)
    (d : JValue) (rest : List TResp) (items its : List JValue) (nc : Option JValue)
    (hm : Option Bool) (r : StopReason)
    (hp : parse_activity_response d = .ok (items, nc, hm)) (h0 : items ≠ [])
    (hg : ¬(st.cursor = none ∧ page_fingerprint items ∈ st.seenFps))
    (hcs : cursorStep l (pageAppend st items) items nc = .stop its r) :
    fetchGo u m l mp st (.body d :: rest)
      = ⟨[mkRequest u m l st], [(items, nc, hm)], [items], .returned its r⟩ := by
  simp [fetchGo, hp, h0, hg, hcs]

theorem fetchGo_ok_tailStop (u m : String) (l : Nat) (mp : Option Nat) (st st2 : St)
    (d : JValue) (rest : List TResp) (items : List JValue) (nc : Option JValue)
    (hm : Option Bool) (r : StopReason)
    (hp : parse_activity_response d = .ok (items, nc, hm)) (h0 : items ≠ [])
    (hg : ¬(st.cursor = none ∧ page_fingerprint items ∈ st.seenFps))
    (hcs : cursorStep l (pageAppend st items) items nc = .go st2)
    (ht : fetchTail mp st2.page hm = .stop r) :
    fetchGo u m l mp st (.body d :: rest)
      = ⟨[mkRequest u m l st], [(items, nc, hm)], [items], .returned st2.allItems r⟩ := by
  simp [fetchGo, hp, h0, hg, hcs, ht]

theorem fetchGo_ok_cont (u m : String) (l : Nat) (mp : Option Nat) (st st2 : St)
    (d : JValue) (rest : List TResp) (items : List JValue) (nc : Option JValue)
    (hm : Option Bool)
    (hp : parse_activity_response d = .ok (items, nc, hm)) (h0 : items ≠ [])
    (hg : ¬(st.cursor = none ∧ page_fingerprint items ∈ st.seenFps))
    (hcs : cursorStep l (pageAppend st items) items nc = .go st2)
    (ht : fetchTail mp st2.page hm = .go) :
    fetchGo u m l mp st (.body d :: rest)
      = ⟨mkRequest u m l st :: (fetchGo u m l mp st2 rest).requests,
         (items, nc, hm) :: (fetchGo u m l mp st2 rest).parses,
         items :: (fetchGo u m l mp st2 rest).appended,
         (fetchGo u m l mp st2 rest).outcome⟩ := by
  simp [fetchGo, hp, h0, hg, hcs, ht]

theorem cursorStep_stop_items (l : Nat) (s : St) (items its : List JValue)
    (nc : Option JValue) (r : StopReason)
    (h : cursorStep l s items nc = .stop its r) : its = s.allItems := by
  rcases nc with _ | c <;> simp only [cursorStep, offsetStep] at h <;>
    split_ifs at h <;> simp_all

theorem cursorStep_go_allItems (l : Nat) (s s2 : St) (items : List JValue)
    (nc : Option JValue) (h : cursorStep l s items nc = .go s2) :
    s2.allItems = s.allItems := by
  rcases nc with _ | c <;> simp only [cursorStep, offsetStep] at h <;>
    split_ifs at h <;> cases h <;> rfl

/-- Whatever the stop reason, the returned `all_items` is the initial
accumulator followed by every appended page, in order. -/
theorem fetchGo_returned_items (u m : String) (l : Nat) (mp : Option Nat) :
    ∀ (resp : List TResp) (st : St) (its : List JValue) (r : StopReason),
    (fetchGo u m l mp st resp).outcome = .returned its r →
    its = st.allItems ++ (fetchGo u m l mp st resp).appended.flatten := by
  intro resp
  induction resp with
  | nil =>
    intro st its r h
    rw [fetchGo_nil] at h
    simp at h
  | cons t rest ih =>
    intro st its r h
    cases t with
    | err => rw [fetchGo_err] at h; simp at h
    | body d =>
      rcases hp : parse_activity_response d with e | ⟨items, nc, hm⟩
      · rw [fetchGo_decodeErr u m l mp st d rest e hp] at h; simp at h
      · by_cases h0 : items = []
        · subst h0
          rw [fetchGo_ok_empty u m l mp st d rest nc hm hp] at h ⊢
          simp at h ⊢
          exact h.1.symm
        · by_cases hg : st.cursor = none ∧ page_fingerprint items ∈ st.seenFps
          · rw [fetchGo_ok_fpRepeat u m l mp st d rest items nc hm hp h0 hg.1 hg.2] at h ⊢
            simp at h ⊢
            exact h.1.symm
          · rcases hcs : cursorStep l (pageAppend st items) items nc with ⟨sits, sr⟩ | st2
            · rw [fetchGo_ok_stop u m l mp st d rest items sits nc hm sr hp h0 hg hcs] at h ⊢
              simp at h ⊢
              rw [← h.1, cursorStep_stop_items l _ items sits nc sr hcs]
              simp [pageAppend]
            · rcases ht : fetchTail mp st2.page hm with tr | _
              · rw [fetchGo_ok_tailStop u m l mp st st2 d rest items nc hm tr hp h0 hg hcs ht]
                  at h ⊢
                simp at h ⊢
                rw [← h.1, cursorStep_go_allItems l _ st2 items nc hcs]
                simp [pageAppend]
              · rw [fetchGo_ok_cont u m l mp st st2 d rest items nc hm hp h0 hg hcs ht] at h ⊢
                simp only at h
                have hits := ih st2 its r h
                rw [hits, cursorStep_go_allItems l _ st2 items nc hcs]
                simp [pageAppend]

/-- Full case analysis of a continuing `cursorStep`: either the offset
path was taken (cursor dropped, cursor set untouched) or a fresh truthy
cursor was adopted and recorded. -/
theorem cursorStep_go_cases (l : Nat) (s s2 : St) (items : List JValue)
    (nc : Option JValue) (h : cursorStep l s items nc = .go s2) :
    (s2.seenCursors = s.seenCursors ∧ s2.cursor = none) ∨
    (∃ c', nc = some c' ∧ truthy c' ∧ c' ∉ s.seenCursors ∧
      s2.cursor = some c' ∧ s2.seenCursors = sinsert c' s.seenCursors) := by
  rcases nc with _ | c' <;> simp only [cursorStep, offsetStep] at h <;>
    split_ifs at h <;> cases h
  · left; exact ⟨rfl, rfl⟩
  · right; exact ⟨c', rfl, by assumption, by assumption, rfl, rfl⟩
  · left; exact ⟨rfl, rfl⟩

/-- A `cursorRepeat` stop comes only from the duplicate-cursor branch:
the page carried exactly that truthy token and it was already in the
consumed set. -/
theorem cursorStep_stop_cursorRepeat (l : Nat) (s : St) (items its : List JValue)
    (nc : Option JValue) (c : JValue)
    (h : cursorStep l s items nc = .stop its (.cursorRepeat c)) :
    nc = some c ∧ truthy c ∧ c ∈ s.seenCursors := by
  rcases nc with _ | c' <;> simp only [cursorStep, offsetStep] at h <;>
    split_ifs at h <;> cases h
  · exact ⟨rfl, by assumption, by assumption⟩

/-- The end-of-iteration checks stop only for the explicit flag or the
page ceiling. -/
theorem fetchTail_stop_reason (mp : Option Nat) (page : Nat) (hm : Option Bool)
    (r : StopReason) (h : fetchTail mp page hm = .stop r) :
    r = .hasMoreFalse ∨ r = .pageCap := by
  rcases mp with _ | mpv <;> simp only [fetchTail] at h <;> split_ifs at h <;>
    cases h <;> simp

/-- A normally-returning fetch decoded at least one page. -/
theorem fetchGo_returned_parses_ne (u m : String) (l : Nat) (mp : Option Nat) :
    ∀ (resp : List TResp) (st : St) (its : List JValue) (r : StopReason),
    (fetchGo u m l mp st resp).outcome = .returned its r →
    (fetchGo u m l mp st resp).parses ≠ [] := by
  intro resp
  induction resp with
  | nil => intro st its r h; rw [fetchGo_nil] at h; simp at h
  | cons t rest ih =>
    intro st its r h
    cases t with
    | err => rw [fetchGo_err] at h; simp at h
    | body d =>
      rcases hp : parse_activity_response d with e | ⟨items, nc, hm⟩
      · rw [fetchGo_decodeErr u m l mp st d rest e hp] at h; simp at h
      · by_cases h0 : items = []
        · subst h0
          rw [fetchGo_ok_empty u m l mp st d rest nc hm hp]
          simp
        · by_cases hg : st.cursor = none ∧ page_fingerprint items ∈ st.seenFps
          · rw [fetchGo_ok_fpRepeat u m l mp st d rest items nc hm hp h0 hg.1 hg.2]
            simp
          · rcases hcs : cursorStep l (pageAppend st items) items nc with ⟨sits, sr⟩ | st2
            · rw [fetchGo_ok_stop u m l mp st d rest items sits nc hm sr hp h0 hg hcs]
              simp
            · rcases ht : fetchTail mp st2.page hm with tr | _
              · rw [fetchGo_ok_tailStop u m l mp st st2 d rest items nc hm tr hp h0 hg hcs ht]
                simp
              · rw [fetchGo_ok_cont u m l mp st st2 d rest items nc hm hp h0 hg hcs ht]
                simp

/-- Run-level facts about a fetch that stopped on a repeated cursor:
every decoded page was appended, no request was issued beyond the one
answered by the detecting page, and the token either predates the run
or was introduced by an earlier decoded page. -/
theorem fetchGo_cursorRepeat_facts (u m : String) (l : Nat) (mp : Option Nat) :
    ∀ (resp : List TResp) (st : St) (its : List JValue) (c : JValue),
    (fetchGo u m l mp st resp).outcome = .returned its (.cursorRepeat c) →
    (fetchGo u m l mp st resp).appended
        = (fetchGo u m l mp st resp).parses.map (fun p => p.1) ∧
    (fetchGo u m l mp st resp).requests.length
        = (fetchGo u m l mp st resp).parses.length ∧
    (c ∈ st.seenCursors ∨
      ∃ e ∈ (fetchGo u m l mp st resp).parses.dropLast, e.2.1 = some c) := by
  intro resp
  induction resp with
  | nil => intro st its c h; rw [fetchGo_nil] at h; simp at h
  | cons t rest ih =>
    intro st its c h
    cases t with
    | err => rw [fetchGo_err] at h; simp at h
    | body d =>
      rcases hp : parse_activity_response d with e | ⟨items, nc, hm⟩
      · rw [fetchGo_decodeErr u m l mp st d rest e hp] at h; simp at h
      · by_cases h0 : items = []
        · subst h0
          rw [fetchGo_ok_empty u m l mp st d rest nc hm hp] at h
          simp at h
        · by_cases hg : st.cursor = none ∧ page_fingerprint items ∈ st.seenFps
          · rw [fetchGo_ok_fpRepeat u m l mp st d rest items nc hm hp h0 hg.1 hg.2] at h
            simp at h
          · rcases hcs : cursorStep l (pageAppend st items) items nc with ⟨sits, sr⟩ | st2
            · rw [fetchGo_ok_stop u m l mp st d rest items sits nc hm sr hp h0 hg hcs] at h ⊢
              simp at h ⊢
              rw [h.2] at hcs
              obtain ⟨-, -, hmem⟩ := cursorStep_stop_cursorRepeat l _ items sits nc c hcs
              simpa [pageAppend] using hmem
            · rcases ht : fetchTail mp st2.page hm with tr | _
              · rw [fetchGo_ok_tailStop u m l mp st st2 d rest items nc hm tr hp h0 hg hcs ht]
                  at h
                simp at h
                rcases fetchTail_stop_reason mp st2.page hm tr ht with h' | h' <;>
                  simp [h'] at h
              · rw [fetchGo_ok_cont u m l mp st st2 d rest items nc hm hp h0 hg hcs ht] at h ⊢
                simp only at h
                obtain ⟨ha, hl, hc⟩ := ih st2 its c h
                have hne := fetchGo_returned_parses_ne u m l mp rest st2 its (.cursorRepeat c) h
                refine ⟨by simp [ha], by simp [hl], ?_⟩
                rw [List.dropLast_cons_of_ne_nil hne]
                rcases hc with hmem | ⟨e, he, hec⟩
                · rcases cursorStep_go_cases l _ st2 items nc hcs with ⟨hseen, -⟩ |
                    ⟨c', hnc, htr, hnotin, -, hseen⟩
                  · left
                    simpa [pageAppend] using hseen ▸ hmem
                  · rw [hseen] at hmem
                    simp only [pageAppend, sinsert] at hmem hnotin
                    rw [if_neg hnotin] at hmem
                    rcases List.mem_cons.mp hmem with hcc | hmem'
                    · subst hcc
                      right
                      exact ⟨(items, nc, hm), List.mem_cons_self _ _, by simp [hnc]⟩
                    · left; exact hmem'
                · right
                  exact ⟨e, List.mem_cons_of_mem _ he, hec⟩

theorem singleton_eq_append_empty (x : List JValue) (qs : List (List JValue))
    (h : [x] = qs ++ [[]]) : qs = [] ∧ x = [] := by
  rcases qs with _ | ⟨q, qs'⟩ <;> simp_all

/-- Run-level fact: when the retrieved pages of a fetch end with the
(only) empty page, the fetch stopped there normally, returning the
initial accumulator followed by every earlier page in order. -/
theorem fetchGo_emptyEnd (u m : String) (l : Nat) (mp : Option Nat) :
    ∀ (resp : List TResp) (st : St) (qs : List (List JValue)),
    (fetchGo u m l mp st resp).parses.map (fun p => p.1) = qs ++ [[]] →
    (fetchGo u m l mp st resp).outcome
      = .returned (st.allItems ++ qs.flatten) .emptyPage := by
  intro resp
  induction resp with
  | nil => intro st qs h; rw [fetchGo_nil] at h; simp at h
  | cons t rest ih =>
    intro st qs h
    cases t with
    | err => rw [fetchGo_err] at h; simp at h
    | body d =>
      rcases hp : parse_activity_response d with e | ⟨items, nc, hm⟩
      · rw [fetchGo_decodeErr u m l mp st d rest e hp] at h; simp at h
      · by_cases h0 : items = []
        · subst h0
          rw [fetchGo_ok_empty u m l mp st d rest nc hm hp] at h ⊢
          simp only [List.map_cons, List.map_nil] at h
          obtain ⟨hqs, -⟩ := singleton_eq_append_empty _ qs h
          subst hqs
          simp
        · by_cases hg : st.cursor = none ∧ page_fingerprint items ∈ st.seenFps
          · rw [fetchGo_ok_fpRepeat u m l mp st d rest items nc hm hp h0 hg.1 hg.2] at h
            simp only [List.map_cons, List.map_nil] at h
            exact absurd (singleton_eq_append_empty _ qs h).2 h0
          · rcases hcs : cursorStep l (pageAppend st items) items nc with ⟨sits, sr⟩ | st2
            · rw [fetchGo_ok_stop u m l mp st d rest items sits nc hm sr hp h0 hg hcs] at h
              simp only [List.map_cons, List.map_nil] at h
              exact absurd (singleton_eq_append_empty _ qs h).2 h0
            · rcases ht : fetchTail mp st2.page hm with tr | _
              · rw [fetchGo_ok_tailStop u m l mp st st2 d rest items nc hm tr hp h0 hg hcs ht]
                  at h
                simp only [List.map_cons, List.map_nil] at h
                exact absurd (singleton_eq_append_empty _ qs h).2 h0
              · rw [fetchGo_ok_cont u m l mp st st2 d rest items nc hm hp h0 hg hcs ht] at h ⊢
                simp only [List.map_cons] at h
                rcases qs with _ | ⟨q, qs'⟩
                · simp at h
                  exact absurd h.1 h0
                · simp only [List.cons_append, List.cons.injEq] at h
                  obtain ⟨hq, hrest⟩ := h
                  have := ih st2 qs' hrest
                  simp only at this ⊢
                  rw [this, cursorStep_go_allItems l _ st2 items nc hcs]
                  simp [pageAppend, hq]

theorem mem_sinsert [DecidableEq α] (y x : α) (s : List α) :
    y ∈ sinsert x s ↔ y = x ∨ y ∈ s := by
  unfold sinsert
  split_ifs with h
  · constructor
    · exact fun hy => Or.inr hy
    · rintro (rfl | hy)
      exacts [h, hy]
  · exact List.mem_cons

theorem pageAppend_seenCursors (st : St) (items : List JValue) :
    (pageAppend st items).seenCursors = st.seenCursors := rfl

theorem pageAppend_cursor (st : St) (items : List JValue) :
    (pageAppend st items).cursor = st.cursor := rfl

theorem mkRequest_cursor_some (u m : String) (l : Nat) (st : St) (c : JValue)
    (h : (mkRequest u m l st).cursor = some c) : st.cursor = some c ∧ truthy c := by
  by_cases ho : optTruthy st.cursor = true
  · simp only [mkRequest, if_pos ho] at h
    refine ⟨h, ?_⟩
    rw [h] at ho
    simpa [optTruthy] using ho
  · simp only [mkRequest, ho, if_false, Bool.false_eq_true] at h
    cases h

theorem single_request_facts (u m : String) (l : Nat) (st : St) :
    ([mkRequest u m l st].filterMap (fun rq => rq.cursor)).Nodup ∧
    (∀ c, c ∈ [mkRequest u m l st].filterMap (fun rq => rq.cursor) →
      c ∉ st.seenCursors ∨ st.cursor = some c) := by
  rcases hc : (mkRequest u m l st).cursor with _ | c0
  · simp [List.filterMap_cons, hc]
  · constructor
    · simp [List.filterMap_cons, hc]
    · intro c hcmem
      simp only [List.filterMap_cons, hc, List.filterMap_nil, List.mem_singleton] at hcmem
      subst hcmem
      exact Or.inr (mkRequest_cursor_some u m l st c hc).1

/-- Loop invariant behind the never-resubmit-a-cursor property: when
every truthy held cursor is already recorded as consumed, the cursor
parameters of all subsequent requests are pairwise distinct, and each
of them is either the currently held cursor or a token outside the
current consumed set. -/
theorem fetchGo_cursor_nodup (u m : String) (l : Nat) (mp : Option Nat) :
    ∀ (resp : List TResp) (st : St),
    (∀ c, st.cursor = some c → truthy c → c ∈ st.seenCursors) →
    ((fetchGo u m l mp st resp).requests.filterMap (fun rq => rq.cursor)).Nodup ∧
    (∀ c, c ∈ (fetchGo u m l mp st resp).requests.filterMap (fun rq => rq.cursor) →
      c ∉ st.seenCursors ∨ st.cursor = some c) := by
  intro resp
  induction resp with
  | nil =>
    intro st hyp
    rw [fetchGo_nil]
    exact single_request_facts u m l st
  | cons t rest ih =>
    intro st hyp
    cases t with
    | err => rw [fetchGo_err]; exact single_request_facts u m l st
    | body d =>
      rcases hp : parse_activity_response d with e | ⟨items, nc, hm⟩
      · rw [fetchGo_decodeErr u m l mp st d rest e hp]
        exact single_request_facts u m l st
      · by_cases h0 : items = []
        · subst h0
          rw [fetchGo_ok_empty u m l mp st d rest nc hm hp]
          exact single_request_facts u m l st
        · by_cases hg : st.cursor = none ∧ page_fingerprint items ∈ st.seenFps
          · rw [fetchGo_ok_fpRepeat u m l mp st d rest items nc hm hp h0 hg.1 hg.2]
            exact single_request_facts u m l st
          · rcases hcs : cursorStep l (pageAppend st items) items nc with ⟨sits, sr⟩ | st2
            · rw [fetchGo_ok_stop u m l mp st d rest items sits nc hm sr hp h0 hg hcs]
              exact single_request_facts u m l st
            · rcases ht : fetchTail mp st2.page hm with tr | _
              · rw [fetchGo_ok_tailStop u m l mp st st2 d rest items nc hm tr hp h0 hg hcs ht]
                exact single_request_facts u m l st
              · rw [fetchGo_ok_cont u m l mp st st2 d rest items nc hm hp h0 hg hcs ht]
                have hyp2 : ∀ c, st2.cursor = some c → truthy c → c ∈ st2.seenCursors := by
                  intro c hc htc
                  rcases cursorStep_go_cases l (pageAppend st items) st2 items nc hcs with
                    ⟨-, hcur⟩ | ⟨c', -, -, -, hcur, hseen⟩
                  · rw [hcur] at hc; cases hc
                  · rw [hcur] at hc
                    injection hc with hc
                    subst hc
                    rw [hseen, mem_sinsert]
                    exact Or.inl rfl
                have htrans : ∀ c, c ∉ st2.seenCursors ∨ st2.cursor = some c →
                    c ∉ st.seenCursors := by
                  intro c hc
                  rcases cursorStep_go_cases l (pageAppend st items) st2 items nc hcs with
                    ⟨hseen, hcur⟩ | ⟨c', -, -, hnotin, hcur, hseen⟩
                  · rcases hc with hc | hc
                    · rw [hseen, pageAppend_seenCursors] at hc
                      exact hc
                    · rw [hcur] at hc; cases hc
                  · rw [pageAppend_seenCursors] at hseen hnotin
                    rcases hc with hc | hc
                    · rw [hseen] at hc
                      intro hmem
                      exact hc ((mem_sinsert c c' st.seenCursors).mpr (Or.inr hmem))
                    · rw [hcur] at hc
                      injection hc with hc
                      subst hc
                      exact hnotin
                obtain ⟨ihn, ihm⟩ := ih st2 hyp2
                simp only [List.filterMap_cons]
                rcases hc : (mkRequest u m l st).cursor with _ | c0
                · exact ⟨ihn, fun c hcm => Or.inl (htrans c (ihm c hcm))⟩
                · obtain ⟨hsc, htc⟩ := mkRequest_cursor_some u m l st c0 hc
                  have hc0seen : c0 ∈ st.seenCursors := hyp c0 hsc htc
                  constructor
                  · refine List.Nodup.cons ?_ ihn
                    intro hc0mem
                    exact htrans c0 (ihm c0 hc0mem) hc0seen
                  · intro c hcm
                    rcases List.mem_cons.mp hcm with rfl | hcm'
                    · exact Or.inr hsc
                    · exact Or.inl (htrans c (ihm c hcm'))

/-- Every request a fetch issues is built by the parameter block of
lines 205-215 from some intermediate state. -/
theorem fetchGo_requests_form (u m : String) (l : Nat) (mp : Option Nat) :
    ∀ (resp : List TResp) (st : St) (rq : Request),
    rq ∈ (fetchGo u m l mp st resp).requests → ∃ s, rq = mkRequest u m l s := by
  intro resp
  induction resp with
  | nil =>
    intro st rq h
    rw [fetchGo_nil] at h
    exact ⟨st, List.mem_singleton.mp h⟩
  | cons t rest ih =>
    intro st rq h
    cases t with
    | err =>
      rw [fetchGo_err] at h
      exact ⟨st, List.mem_singleton.mp h⟩
    | body d =>
      rcases hp : parse_activity_response d with e | ⟨items, nc, hm⟩
      · rw [fetchGo_decodeErr u m l mp st d rest e hp] at h
        exact ⟨st, List.mem_singleton.mp h⟩
      · by_cases h0 : items = []
        · subst h0
          rw [fetchGo_ok_empty u m l mp st d rest nc hm hp] at h
          exact ⟨st, List.mem_singleton.mp h⟩
        · by_cases hg : st.cursor = none ∧ page_fingerprint items ∈ st.seenFps
          · rw [fetchGo_ok_fpRepeat u m l mp st d rest items nc hm hp h0 hg.1 hg.2] at h
            exact ⟨st, List.mem_singleton.mp h⟩
          · rcases hcs : cursorStep l (pageAppend st items) items nc with ⟨sits, sr⟩ | st2
            · rw [fetchGo_ok_stop u m l mp st d rest items sits nc hm sr hp h0 hg hcs] at h
              exact ⟨st, List.mem_singleton.mp h⟩
            · rcases ht : fetchTail mp st2.page hm with tr | _
              · rw [fetchGo_ok_tailStop u m l mp st st2 d rest items nc hm tr hp h0 hg hcs ht]
                  at h
                exact ⟨st, List.mem_singleton.mp h⟩
              · rw [fetchGo_ok_cont u m l mp st st2 d rest items nc hm hp h0 hg hcs ht] at h
                rcases List.mem_cons.mp h with rfl | h'
                · exact ⟨st, rfl⟩
                · exact ih st2 rq h'

theorem mkRequest_props (u m : String) (l : Nat) (s : St) :
    (mkRequest u m l s).limit = l ∧ (mkRequest u m l s).sortBy = "TIMESTAMP" ∧
    (mkRequest u m l s).sortDirection = "DESC" ∧ (mkRequest u m l s).user = u ∧
    (mkRequest u m l s).market = m ∧
    (((mkRequest u m l s).cursor ≠ none ∧ (mkRequest u m l s).offset = none) ∨
     ((mkRequest u m l s).cursor = none ∧ (mkRequest u m l s).offset ≠ none)) := by
  unfold mkRequest
  split_ifs with h
  · refine ⟨rfl, rfl, rfl, rfl, rfl, Or.inl ⟨?_, rfl⟩⟩
    cases hsc : s.cursor with
    | none => rw [hsc] at h; simp [optTruthy] at h
    | some c0 => simp
  · exact ⟨rfl, rfl, rfl, rfl, rfl, Or.inr ⟨rfl, by simp⟩⟩

/-- An offset-mode page shorter than the limit ends the fetch after
being appended: single request, page appended, normal return. -/
theorem fetchGo_shortPage (u m : String) (l : Nat) (mp : Option Nat) (st : St)
    (d : JValue) (rest : List TResp) (items : List JValue) (nc : Option JValue)
    (hm : Option Bool) (hp : parse_activity_response d = .ok (items, nc, hm))
    (h0 : items ≠ [])
    (hg : ¬(st.cursor = none ∧ page_fingerprint items ∈ st.seenFps))
    (hnc : optTruthy nc = false) (hshort : items.length < l) :
    fetchGo u m l mp st (.body d :: rest)
      = ⟨[mkRequest u m l st], [(items, nc, hm)], [items],
         .returned (st.allItems ++ items) .shortPage⟩ := by
  have hcs : cursorStep l (pageAppend st items) items nc
      = .stop (st.allItems ++ items) .shortPage := by
    rw [cursorStep_notTruthy l _ items nc hnc, offsetStep_short l _ items hshort]
    rfl
  exact fetchGo_ok_stop u m l mp st d rest items _ nc hm _ hp h0 hg hcs

/-- In cursor mode the fingerprint guard is skipped: the page is
appended whatever the fingerprint set contains. -/
theorem fetchGo_cursorMode_appended (u m : String) (l : Nat) (mp : Option Nat) (st : St)
    (d : JValue) (rest : List TResp) (items : List JValue) (nc : Option JValue)
    (hm : Option Bool) (hp : parse_activity_response d = .ok (items, nc, hm))
    (h0 : items ≠ []) (hc : st.cursor ≠ none) :
    ∃ tl, (fetchGo u m l mp st (.body d :: rest)).appended = items :: tl := by
  have hg : ¬(st.cursor = none ∧ page_fingerprint items ∈ st.seenFps) := fun h => hc h.1
  rcases hcs : cursorStep l (pageAppend st items) items nc with ⟨sits, sr⟩ | st2
  · exact ⟨[], by rw [fetchGo_ok_stop u m l mp st d rest items sits nc hm sr hp h0 hg hcs]⟩
  · rcases ht : fetchTail mp st2.page hm with tr | _
    · exact ⟨[], by
        rw [fetchGo_ok_tailStop u m l mp st st2 d rest items nc hm tr hp h0 hg hcs ht]⟩
    · exact ⟨(fetchGo u m l mp st2 rest).appended, by
        rw [fetchGo_ok_cont u m l mp st st2 d rest items nc hm hp h0 hg hcs ht]⟩

/-- Responses of the C1 counterexample run: one good page, then a dict
with only an unrecognized key. -/
def c1resp : List TResp :=
  [.body (.arr (jlist [.num 7])), .body (.obj (jobj [("foo", .arr .nil)]))]

/-- C1 counterexample: after a first page was decoded and appended
(the `appended` trace shows it), the unrecognized second response makes
the fetch end in the decode-error outcome — the `RuntimeError`
propagates out of `fetch_activity`, so the accumulated items are *not*
returned to the caller, contrary to the claim. -/
theorem c1_counterexample :
    (fetch_activity "u" "m" 1 none c1resp).outcome = .decodeErr ∧
    (fetch_activity "u" "m" 1 none c1resp).appended = [[.num 7]] :=
  ⟨rfl, rfl⟩

/-- C1 (amended): when a later response has an unrecognized shape, the
current fetch raises: whatever state the loop is in (arbitrary `st`,
so in particular after earlier pages were appended), the outcome is
the decode-error outcome — distinct from the transport-error outcome
and from every normal return — and the accumulated items are lost to
the caller. -/
theorem c1_decode_error_raises (u m : String) (l : Nat) (mp : Option Nat) (st : St)
    (d : JValue) (rest : List TResp) (e : String)
    (hp : parse_activity_response d = .error e) :
    (fetchGo u m l mp st (.body d :: rest)).outcome = .decodeErr := by
  rw [fetchGo_decodeErr u m l mp st d rest e hp]

/-- C1 witness: the amended theorem applied mid-fetch, with one page
already accumulated. -/
theorem c1_decode_error_raises_witness :
    (fetchGo "u" "m" 1 none ⟨[.num 7], 1, none, [], 1, [page_fingerprint [.num 7]]⟩
      [.body (.obj (jobj [("foo", .arr .nil)]))]).outcome = .decodeErr :=
  c1_decode_error_raises "u" "m" 1 none
    ⟨[.num 7], 1, none, [], 1, [page_fingerprint [.num 7]]⟩
    (.obj (jobj [("foo", .arr .nil)])) [] "Unexpected activity response shape" rfl

/-- A page decoded with a truthy next-cursor token that is already in
the consumed set is the last page of its fetch: no control path of
that iteration issues another request. -/
theorem fetchGo_dupCursor_single (u m : String) (l : Nat) (mp : Option Nat) (st : St)
    (d : JValue) (rest : List TResp) (items : List JValue) (c : JValue)
    (hm : Option Bool) (hp : parse_activity_response d = .ok (items, some c, hm))
    (ht : truthy c) (hmem : c ∈ st.seenCursors) :
    (fetchGo u m l mp st (.body d :: rest)).requests = [mkRequest u m l st] := by
  by_cases h0 : items = []
  · subst h0
    rw [fetchGo_ok_empty u m l mp st d rest (some c) hm hp]
  · by_cases hg : st.cursor = none ∧ page_fingerprint items ∈ st.seenFps
    · rw [fetchGo_ok_fpRepeat u m l mp st d rest items (some c) hm hp h0 hg.1 hg.2]
    · have hcs := cursorStep_dup l (pageAppend st items) items c ht
        (by rw [pageAppend_seenCursors]; exact hmem)
      rw [fetchGo_ok_stop u m l mp st d rest items _ (some c) hm _ hp h0 hg hcs]

/-- C2: a page whose decoded metadata carries a next-cursor token
already in the consumed set is always the last requested page of its
fetch; and a fetch that stopped on the duplicate-cursor guard returned
the concatenation of *all* decoded pages (the detecting page included,
since it is appended before the duplicate is noticed), issued no
request beyond the one that fetched the detecting page, and the token
was introduced by one of the earlier decoded pages. -/
theorem c2_repeated_cursor_stops (u m : String) (l : Nat) (mp : Option Nat) :
    (∀ (st : St) (d : JValue) (rest : List TResp) (items : List JValue) (c : JValue)
        (hm : Option Bool),
      parse_activity_response d = .ok (items, some c, hm) → truthy c →
      c ∈ st.seenCursors →
      (fetchGo u m l mp st (.body d :: rest)).requests = [mkRequest u m l st]) ∧
    (∀ (resp : List TResp) (its : List JValue) (c : JValue),
      (fetch_activity u m l mp resp).outcome = .returned its (.cursorRepeat c) →
      its = ((fetch_activity u m l mp resp).parses.map (fun p => p.1)).flatten ∧
      (fetch_activity u m l mp resp).requests.length
        = (fetch_activity u m l mp resp).parses.length ∧
      ∃ e ∈ (fetch_activity u m l mp resp).parses.dropLast, e.2.1 = some c) := by
  constructor
  · intro st d rest items c hm hp ht hmem
    exact fetchGo_dupCursor_single u m l mp st d rest items c hm hp ht hmem
  · intro resp its c h
    simp only [fetch_activity] at h ⊢
    obtain ⟨ha, hl, hc⟩ := fetchGo_cursorRepeat_facts u m l mp resp initSt its c h
    refine ⟨?_, hl, ?_⟩
    · have hit := fetchGo_returned_items u m l mp resp initSt its (.cursorRepeat c) h
      rw [hit, ha]
      simp [initSt]
    · rcases hc with hmem | h'
      · simp [initSt] at hmem
      · exact h'

/-- Responses of the C2 witness run: `nextCursor: "abc"` twice. -/
def c2resp : List TResp :=
  [.body (.obj (jobj [("data", .arr (jlist [.num 1])), ("nextCursor", .str "abc")])),
   .body (.obj (jobj [("data", .arr (jlist [.num 2])), ("nextCursor", .str "abc")]))]

/-- C2 witness: the spec's `"abc"`-twice scenario, and the
no-further-request clause applied to the state its first page
produces. -/
theorem c2_repeated_cursor_stops_witness :
    (fetchGo "u" "m" 1 none
        ⟨[.num 1], 0, some (.str "abc"), [.str "abc"], 1, [page_fingerprint [.num 1]]⟩
        [.body (.obj (jobj [("data", .arr (jlist [.num 2])),
          ("nextCursor", .str "abc")]))]).requests
      = [mkRequest "u" "m" 1
          ⟨[.num 1], 0, some (.str "abc"), [.str "abc"], 1,
            [page_fingerprint [.num 1]]⟩] ∧
    ([JValue.num 1, JValue.num 2]
        = ((fetch_activity "u" "m" 1 none c2resp).parses.map (fun p => p.1)).flatten ∧
      (fetch_activity "u" "m" 1 none c2resp).requests.length
        = (fetch_activity "u" "m" 1 none c2resp).parses.length ∧
      ∃ e ∈ (fetch_activity "u" "m" 1 none c2resp).parses.dropLast,
        e.2.1 = some (.str "abc")) :=
  ⟨(c2_repeated_cursor_stops "u" "m" 1 none).1
      ⟨[.num 1], 0, some (.str "abc"), [.str "abc"], 1, [page_fingerprint [.num 1]]⟩
      (.obj (jobj [("data", .arr (jlist [.num 2])), ("nextCursor", .str "abc")]))
      [] [.num 2] (.str "abc") none rfl rfl (List.mem_singleton.mpr rfl),
   (c2_repeated_cursor_stops "u" "m" 1 none).2 c2resp [.num 1, .num 2] (.str "abc") rfl⟩

/-- C3: the fingerprint set is consulted only in offset mode.  With no
cursor held, a page whose fingerprint — the (first-item identifying
value, last-item identifying value, item count) triple of
`page_fingerprint` — is already in the seen set is not appended and
the fetch stops at that request; the state `st` is arbitrary, so any
later occurrence (third, fourth, ...) is caught the same way, the
check being membership in the ever-growing set.  With a cursor held,
the page is appended with no fingerprint comparison at all. -/
theorem c3_fingerprint_offset_mode_only (u m : String) (l : Nat) (mp : Option Nat)
    (st : St) (d : JValue) (rest : List TResp) (items : List JValue)
    (nc : Option JValue) (hm : Option Bool)
    (hp : parse_activity_response d = .ok (items, nc, hm)) (h0 : items ≠ []) :
    (st.cursor = none → page_fingerprint items ∈ st.seenFps →
      fetchGo u m l mp st (.body d :: rest)
        = ⟨[mkRequest u m l st], [(items, nc, hm)], [],
           .returned st.allItems .fpRepeat⟩) ∧
    (st.cursor ≠ none →
      ∃ tl, (fetchGo u m l mp st (.body d :: rest)).appended = items :: tl) := by
  constructor
  · intro hc hfp
    exact fetchGo_ok_fpRepeat u m l mp st d rest items nc hm hp h0 hc hfp
  · intro hc
    exact fetchGo_cursorMode_appended u m l mp st d rest items nc hm hp h0 hc

/-- C3 witness: the offset-mode repeat stops without appending on a
third occurrence of the fingerprint; the same page in cursor mode is
appended despite its fingerprint being in the set. -/
theorem c3_fingerprint_offset_mode_only_witness :
    (fetchGo "u" "m" 2 none ⟨[.num 9, .num 9], 2, none, [], 2, [page_fingerprint [.num 9]]⟩
        [.body (.arr (jlist [.num 9]))]
      = ⟨[mkRequest "u" "m" 2 ⟨[.num 9, .num 9], 2, none, [], 2,
            [page_fingerprint [.num 9]]⟩],
         [([.num 9], none, none)], [], .returned [.num 9, .num 9] .fpRepeat⟩) ∧
    (∃ tl, (fetchGo "u" "m" 2 none
        ⟨[.num 9], 0, some (.str "t"), [.str "t"], 1, [page_fingerprint [.num 9]]⟩
        [.body (.arr (jlist [.num 9]))]).appended = [.num 9] :: tl) :=
  ⟨(c3_fingerprint_offset_mode_only "u" "m" 2 none
      ⟨[.num 9, .num 9], 2, none, [], 2, [page_fingerprint [.num 9]]⟩
      (.arr (jlist [.num 9])) [] [.num 9] none none rfl (by simp)).1 rfl
      (List.mem_singleton.mpr rfl),
   (c3_fingerprint_offset_mode_only "u" "m" 2 none
      ⟨[.num 9], 0, some (.str "t"), [.str "t"], 1, [page_fingerprint [.num 9]]⟩
      (.arr (jlist [.num 9])) [] [.num 9] none none rfl (by simp)).2 (by simp)⟩

/-- One scenario page: `n` distinct numeric items starting at `a`. -/
def c4page (a n : Nat) : List JValue :=
  (List.range n).map (fun i => .num (a + i : Nat))

/-- Responses of the C4 scenario: bare pages of 50, 50 and 30 distinct
items, with no cursor or metadata fields at all. -/
def c4resp : List TResp :=
  [.body (.arr (jlist (c4page 0 50))), .body (.arr (jlist (c4page 50 50))),
   .body (.arr (jlist (c4page 100 30)))]

/-- C4: an offset-mode page (no truthy next cursor) shorter than the
limit is appended and ends the fetch with no further request; a full
page instead advances the offset by exactly the number of items
received; and in the 50/50/30 scenario at limit 50 the fetch issues
requests at offsets 0, 50, 100 (never a cursor) and returns the 130
items. -/
theorem c4_offset_mode (u m : String) (l : Nat) (mp : Option Nat) :
    (∀ (st : St) (d : JValue) (rest : List TResp) (items : List JValue)
        (nc : Option JValue) (hm : Option Bool),
      parse_activity_response d = .ok (items, nc, hm) → items ≠ [] →
      ¬(st.cursor = none ∧ page_fingerprint items ∈ st.seenFps) →
      optTruthy nc = false → items.length < l →
      fetchGo u m l mp st (.body d :: rest)
        = ⟨[mkRequest u m l st], [(items, nc, hm)], [items],
           .returned (st.allItems ++ items) .shortPage⟩) ∧
    (∀ (st : St) (items : List JValue) (nc : Option JValue),
      optTruthy nc = false → ¬ items.length < l →
      cursorStep l (pageAppend st items) items nc
        = .go { pageAppend st items with
                  cursor := none,
                  offset := st.offset + items.length }) ∧
    ((fetch_activity "u" "m" 50 none c4resp).requests.map (fun rq => rq.offset)
        = [some 0, some 50, some 100] ∧
     (fetch_activity "u" "m" 50 none c4resp).requests.map (fun rq => rq.cursor)
        = [none, none, none] ∧
     (fetch_activity "u" "m" 50 none c4resp).outcome
        = .returned (c4page 0 130) .shortPage) := by
  refine ⟨?_, ?_, rfl, rfl, ?_⟩
  · intro st d rest items nc hm hp h0 hg hnc hshort
    exact fetchGo_shortPage u m l mp st d rest items nc hm hp h0 hg hnc hshort
  · intro st items nc hnc hfull
    rw [cursorStep_notTruthy l _ items nc hnc, offsetStep_full l _ items hfull]
    rfl
  · rfl

/-- C4 witness: the short-page clause applied to a fresh fetch whose
single page has 1 item at limit 2. -/
theorem c4_offset_mode_witness :
    fetchGo "u" "m" 2 none initSt [.body (.arr (jlist [.num 3]))]
      = ⟨[mkRequest "u" "m" 2 initSt], [([.num 3], none, none)], [[.num 3]],
         .returned [.num 3] .shortPage⟩ :=
  (c4_offset_mode "u" "m" 2 none).1 initSt (.arr (jlist [.num 3])) [] [.num 3]
    none none rfl (by simp) (by simp [initSt]) rfl (by decide)

/-- C5: whenever a page decodes with an explicitly false "more data"
flag, that page's request is the only one issued from that point on
and the loop returns normally — whatever the cursor and offset content
of the same response, a fresh next-cursor token included. -/
theorem c5_hasMore_false_stops (u m : String) (l : Nat) (mp : Option Nat) (st : St)
    (d : JValue) (rest : List TResp) (items : List JValue) (nc : Option JValue)
    (hp : parse_activity_response d = .ok (items, nc, some false)) :
    (fetchGo u m l mp st (.body d :: rest)).requests = [mkRequest u m l st] ∧
    ∃ its r, (fetchGo u m l mp st (.body d :: rest)).outcome = .returned its r :=
  fetchGo_hasMoreFalse u m l mp st d rest items nc hp

/-- Response of the C5 witness: `hasMore: false` together with a new,
unseen next-cursor token. -/
def c5data : JValue :=
  .obj (jobj [("data", .arr (jlist [.num 1])), ("nextCursor", .str "new"),
              ("hasMore", .bool false)])

/-- C5 witness: the explicit flag wins over the fresh cursor. -/
theorem c5_hasMore_false_stops_witness :
    (fetchGo "u" "m" 1 none initSt [.body c5data]).requests
      = [mkRequest "u" "m" 1 initSt] ∧
    ∃ its r, (fetchGo "u" "m" 1 none initSt [.body c5data]).outcome
      = .returned its r :=
  c5_hasMore_false_stops "u" "m" 1 none initSt c5data [] [.num 1]
    (some (.str "new")) rfl

/-- Responses of the C6 counterexample: three source pages, only the
final one empty, but the first one is shorter than the limit. -/
def c6resp : List TResp :=
  [.body (.arr (jlist [.num 0])), .body (.arr (jlist [.num 1])), .body (.arr .nil)]

/-- C6 counterexample: at limit 2 on source pages [0], [1], [] — only
the final page empty — the fetch stops at the first short page after a
single request and returns only its item, not the concatenation of all
the non-empty pages. -/
theorem c6_counterexample :
    (fetch_activity "u" "m" 2 none c6resp).outcome = .returned [.num 0] .shortPage ∧
    (fetch_activity "u" "m" 2 none c6resp).requests.length = 1 ∧
    ([JValue.num 0] : List JValue) ≠ [JValue.num 0, JValue.num 1] :=
  ⟨rfl, rfl, by decide⟩

/-- C6 (amended): when the pages the fetcher actually retrieves end
with the (only) empty page, the fetch terminates there normally and
returns exactly the concatenation, in retrieval order, of the
non-empty retrieved pages' items. -/
theorem c6_empty_final_page (u m : String) (l : Nat) (mp : Option Nat)
    (resp : List TResp) (qs : List (List JValue))
    (h1 : (fetch_activity u m l mp resp).parses.map (fun p => p.1) = qs ++ [[]])
    (_h2 : ∀ p ∈ qs, p ≠ []) :
    (fetch_activity u m l mp resp).outcome = .returned qs.flatten .emptyPage := by
  simp only [fetch_activity] at h1 ⊢
  have h := fetchGo_emptyEnd u m l mp resp initSt qs h1
  simpa [initSt] using h

/-- Responses of the C6 witness: one full page, then the empty page. -/
def c6wresp : List TResp := [.body (.arr (jlist [.num 5])), .body (.arr .nil)]

/-- C6 witness: a fetch that reaches the empty page returns the
concatenation of the earlier pages. -/
theorem c6_empty_final_page_witness :
    (fetch_activity "u" "m" 1 none c6wresp).outcome
      = .returned [.num 5] .emptyPage :=
  c6_empty_final_page "u" "m" 1 none c6wresp [[.num 5]] rfl (by decide)

/-- C7: across one whole fetch, the cursor parameters carried by the
issued requests are pairwise distinct — no cursor token is ever
submitted twice. -/
theorem c7_no_cursor_resubmission (u m : String) (l : Nat) (mp : Option Nat)
    (resp : List TResp) :
    ((fetch_activity u m l mp resp).requests.filterMap (fun rq => rq.cursor)).Nodup := by
  simp only [fetch_activity]
  exact (fetchGo_cursor_nodup u m l mp resp initSt
    (fun c hc _ => by simp [initSt] at hc)).1

/-- C8 counterexample: a response carrying its item list and a
non-empty top-level `nextPageToken` decodes with *no* next cursor —
the top-level search covers only `nextCursor`, `next_cursor`,
`cursor`, `next`. -/
theorem c8_counterexample :
    parse_activity_response
      (.obj (jobj [("items", .arr (jlist [.null])), ("nextPageToken", .str "tok")]))
      = .ok ([.null], none, none) := rfl

/-- C8 (amended): the decoder returns the first truthy value of the
four top-level synonyms `nextCursor`, `next_cursor`, `cursor`, `next`;
`nextPageToken` is recognized only inside a non-empty `pagination`
sub-object (and only when no top-level synonym and no earlier
pagination synonym yielded a cursor), not at the top level. -/
theorem c8_cursor_synonyms :
    (∀ (d : JFields) (xs : JList) (v : JValue),
      findItems d = some xs → topCursor d = some v →
      parse_activity_response (.obj d) = .ok (xs.toList, some v, parseHasMore d)) ∧
    (∀ (d : JFields) (xs : JList) (v : JValue),
      findItems d = some xs → topCursor d = none → pagFields d ≠ .nil →
      truthyGet (pagFields d) "nextCursor" = none →
      truthyGet (pagFields d) "next_cursor" = none →
      truthyGet (pagFields d) "cursor" = none →
      truthyGet (pagFields d) "next" = none →
      jget (pagFields d) "nextPageToken" = some v → truthy v →
      parse_activity_response (.obj d) = .ok (xs.toList, some v, parseHasMore d)) := by
  constructor
  · intro d xs v hi hc
    simp [parse_activity_response, hi, parseCursor, hc]
  · intro d xs v hi hc hp h1 h2 h3 h4 h5 h6
    have h7 : truthyGet (pagFields d) "nextPageToken" = some v := by
      simp [truthyGet, h5, h6]
    simp [parse_activity_response, hi, parseCursor, hc, hp, pagCursor, h1, h2, h3, h4, h7]

/-- C8 witness: a top-level `nextCursor` is returned; a `nextPageToken`
nested under `pagination` is returned. -/
theorem c8_cursor_synonyms_witness :
    parse_activity_response (.obj (jobj [("items", .arr .nil), ("nextCursor", .str "c1")]))
      = .ok ([], some (.str "c1"), none) ∧
    parse_activity_response
      (.obj (jobj [("items", .arr .nil),
        ("pagination", .obj (jobj [("nextPageToken", .str "c2")]))]))
      = .ok ([], some (.str "c2"), none) :=
  ⟨c8_cursor_synonyms.1 (jobj [("items", .arr .nil), ("nextCursor", .str "c1")])
     .nil (.str "c1") rfl rfl,
   c8_cursor_synonyms.2
     (jobj [("items", .arr .nil),
       ("pagination", .obj (jobj [("nextPageToken", .str "c2")]))])
     .nil (.str "c2") rfl rfl (by decide) rfl rfl rfl rfl rfl rfl⟩

/-- C9: every request of a fetch carries the fetch's limit,
`sortBy=TIMESTAMP`, `sortDirection=DESC`, the user and the market, and
exactly one of a cursor parameter or an offset parameter. -/
theorem c9_request_parameters (u m : String) (l : Nat) (mp : Option Nat)
    (resp : List TResp) (rq : Request)
    (h : rq ∈ (fetch_activity u m l mp resp).requests) :
    rq.limit = l ∧ rq.sortBy = "TIMESTAMP" ∧ rq.sortDirection = "DESC" ∧
    rq.user = u ∧ rq.market = m ∧
    ((rq.cursor ≠ none ∧ rq.offset = none) ∨ (rq.cursor = none ∧ rq.offset ≠ none)) := by
  simp only [fetch_activity] at h
  obtain ⟨s, rfl⟩ := fetchGo_requests_form u m l mp resp initSt rq h
  exact mkRequest_props u m l s

/-- C9 witness: the parameters of the one request of a one-page run. -/
theorem c9_request_parameters_witness :
    (mkRequest "u" "m" 1 initSt).limit = 1 ∧
    (mkRequest "u" "m" 1 initSt).sortBy = "TIMESTAMP" ∧
    (mkRequest "u" "m" 1 initSt).sortDirection = "DESC" ∧
    (mkRequest "u" "m" 1 initSt).user = "u" ∧
    (mkRequest "u" "m" 1 initSt).market = "m" ∧
    (((mkRequest "u" "m" 1 initSt).cursor ≠ none ∧
        (mkRequest "u" "m" 1 initSt).offset = none) ∨
     ((mkRequest "u" "m" 1 initSt).cursor = none ∧
        (mkRequest "u" "m" 1 initSt).offset ≠ none)) :=
  c9_request_parameters "u" "m" 1 none [.body (.arr .nil)] (mkRequest "u" "m" 1 initSt)
    (List.mem_singleton.mpr rfl)

/-- C10: the "more data" flag is coerced through Python truthiness:
false, 0, null and the empty string are all falsy; a `hasMore` or
`has_more` key yields `bool` of its value wherever it lives — top
level checked first (`hasMore` before `has_more`), then, when both
top-level keys are absent, the pagination sub-object with the same key
priority; the flag is unknown only when both keys are absent from the
top level and from the pagination sub-object; and a page decoded with
the flag false is the last request of its fetch. -/
theorem c10_hasMore_truthiness :
    (truthy .null = false ∧ truthy (.bool false) = false ∧ truthy (.num 0) = false ∧
     truthy (.str "") = false ∧ truthy (.num 2) = true ∧ truthy (.str "x") = true) ∧
    (∀ (d : JFields) (v : JValue),
      jget d "hasMore" = some v → parseHasMore d = some (truthy v)) ∧
    (∀ (d : JFields) (v : JValue),
      jget d "hasMore" = none → jget d "has_more" = some v →
      parseHasMore d = some (truthy v)) ∧
    (∀ (d : JFields) (v : JValue),
      jget d "hasMore" = none → jget d "has_more" = none →
      jget (pagFields d) "hasMore" = some v →
      parseHasMore d = some (truthy v)) ∧
    (∀ (d : JFields) (v : JValue),
      jget d "hasMore" = none → jget d "has_more" = none →
      jget (pagFields d) "hasMore" = none → jget (pagFields d) "has_more" = some v →
      parseHasMore d = some (truthy v)) ∧
    (∀ (d : JFields),
      jget d "hasMore" = none → jget d "has_more" = none →
      jget (pagFields d) "hasMore" = none → jget (pagFields d) "has_more" = none →
      parseHasMore d = none) ∧
    (∀ (u m : String) (l : Nat) (mp : Option Nat) (st : St) (d : JValue)
        (rest : List TResp) (items : List JValue) (nc : Option JValue),
      parse_activity_response d = .ok (items, nc, some false) →
      (fetchGo u m l mp st (.body d :: rest)).requests = [mkRequest u m l st]) := by
  refine ⟨⟨rfl, rfl, by decide, rfl, by decide, by decide⟩, ?_, ?_, ?_, ?_, ?_, ?_⟩
  · intro d v h
    simp [parseHasMore, hasMoreIn, h]
  · intro d v h1 h2
    simp [parseHasMore, hasMoreIn, h1, h2]
  · intro d v h1 h2 h3
    have hpn : pagFields d ≠ JFields.nil := by
      intro he
      rw [he] at h3
      simp [jget] at h3
    simp [parseHasMore, hasMoreIn, h1, h2, hpn, h3]
  · intro d v h1 h2 h3 h4
    have hpn : pagFields d ≠ JFields.nil := by
      intro he
      rw [he] at h4
      simp [jget] at h4
    simp [parseHasMore, hasMoreIn, h1, h2, hpn, h3, h4]
  · intro d h1 h2 h3 h4
    simp only [parseHasMore, hasMoreIn, h1, h2, h3, h4]
    split_ifs <;> rfl
  · intro u m l mp st d rest items nc hp
    exact (fetchGo_hasMoreFalse u m l mp st d rest items nc hp).1

/-- C10 witness: a null-valued top-level `hasMore` is reported as an
explicit false; a zero-valued `hasMore` present only under the
pagination sub-object is likewise reported as an explicit false; a
response without any flag key anywhere reports unknown. -/
theorem c10_hasMore_truthiness_witness :
    parseHasMore (jobj [("hasMore", .null), ("items", .arr .nil)]) = some false ∧
    parseHasMore (jobj [("pagination", .obj (jobj [("hasMore", .num 0)]))]) = some false ∧
    parseHasMore (jobj [("k", .num 1)]) = none :=
  ⟨c10_hasMore_truthiness.2.1 (jobj [("hasMore", .null), ("items", .arr .nil)]) .null rfl,
   c10_hasMore_truthiness.2.2.2.1
     (jobj [("pagination", .obj (jobj [("hasMore", .num 0)]))]) (.num 0) rfl rfl rfl,
   c10_hasMore_truthiness.2.2.2.2.2.1 (jobj [("k", .num 1)]) rfl rfl rfl rfl⟩
